import Mathlib

/-!
Verification of the `ncbi_utils` repository's caching and download helpers.

The development shallowly embeds the pure logic of `cache.py`,
`query_sra.py`, `fetch_sra.py` and `download_sra.py`:

* Python values that can be stored in the pickle cache are modelled by
  the mutual inductive `PyValue`/`PyList` (`None`, `bool`, `int`, `str`,
  `list`, `tuple`).
* `pickle.dumps`/`pickle.loads` are modelled by an injective byte
  encoding `pickleDumps` with a verified decoder `pickleLoads`; the
  leading byte `0x80` mirrors the PROTO opcode that every real pickle
  stream starts with, so pickled data never starts with the gzip magic
  bytes `0x1f 0x8b`.
* gzip wrapping is modelled by prefixing the two magic bytes; the
  `gzip.BadGzipFile` detection in `load_cache` corresponds to testing
  those two bytes.
* the filesystem is an association list from paths to byte lists.
* MD5 is kept as an explicit function parameter; a concrete injective
  stand-in `md5Model` is supplied for evaluating concrete runs.
-/

mutual

inductive PyValue where
  | none
  | bool (b : Bool)
  | int (n : Int)
  | str (s : String)
  | list (xs : PyList)
  | tuple (xs : PyList)

inductive PyList where
  | nil
  | cons (hd : PyValue) (tl : PyList)

end

deriving instance DecidableEq for PyValue
deriving instance DecidableEq for PyList

def plLength : PyList → Nat
  | .nil => 0
  | .cons _ t => plLength t + 1

/-- Number of Python values appended from a Lean list. -/
def listToPyList : List PyValue → PyList
  | [] => .nil
  | v :: t => .cons v (listToPyList t)

mutual

/-- Byte encoding standing in for the body of a pickle stream. -/
def pyEncode : PyValue → List Nat
  | .none => [0]
  | .bool b => [1, cond b 1 0]
  | .int n => [2, if n < 0 then 1 else 0, n.natAbs]
  | .str s => 3 :: s.data.length :: s.data.map Char.toNat
  | .list xs => 4 :: plLength xs :: plEncode xs
  | .tuple xs => 5 :: plLength xs :: plEncode xs

def plEncode : PyList → List Nat
  | .nil => []
  | .cons h t => pyEncode h ++ plEncode t

end

mutual

/-- Fuel bound needed by the decoder for a value. -/
def pvDepth : PyValue → Nat
  | .none => 1
  | .bool _ => 1
  | .int _ => 1
  | .str _ => 1
  | .list xs => plDepth xs + 1
  | .tuple xs => plDepth xs + 1

def plDepth : PyList → Nat
  | .nil => 1
  | .cons h t => max (pvDepth h) (plDepth t) + 1

end

mutual

/-- Fuel-indexed decoder for the byte encoding.  Fuel decreases on every
recursive call, so the definition is structurally recursive and reduces
definitionally. -/
def pyDecode : Nat → List Nat → Option (PyValue × List Nat)
  | 0, _ => Option.none
  | _ + 1, 0 :: rest => some (.none, rest)
  | _ + 1, 1 :: b :: rest => some (.bool (b == 1), rest)
  | _ + 1, 2 :: s :: m :: rest =>
      some (.int (if s == 1 then -(m : Int) else (m : Int)), rest)
  | _ + 1, 3 :: n :: rest =>
      if n ≤ rest.length then
        some (.str (String.mk ((rest.take n).map Char.ofNat)), rest.drop n)
      else
        Option.none
  | fuel + 1, 4 :: n :: rest =>
      (pyDecodeList fuel n rest).map (fun p => (PyValue.list p.1, p.2))
  | fuel + 1, 5 :: n :: rest =>
      (pyDecodeList fuel n rest).map (fun p => (PyValue.tuple p.1, p.2))
  | _ + 1, _ => Option.none

def pyDecodeList : Nat → Nat → List Nat → Option (PyList × List Nat)
  | 0, _, _ => Option.none
  | _ + 1, 0, bs => some (.nil, bs)
  | fuel + 1, n + 1, bs =>
      match pyDecode fuel bs with
      | some (v, r) => (pyDecodeList fuel n r).map (fun p => (PyList.cons v p.1, p.2))
      | Option.none => Option.none

end

/-- Model of `pickle.dumps`: PROTO opcode byte `0x80` followed by the body. -/
def pickleDumps (v : PyValue) : List Nat := 128 :: pyEncode v

/-- Model of `pickle.load` on a whole file's bytes. -/
def pickleLoads : List Nat → Option PyValue
  | 128 :: rest => (pyDecode rest.length rest).map (·.1)
  | _ => Option.none

theorem one_le_pvDepth (v : PyValue) : 1 ≤ pvDepth v := by
  cases v <;> simp [pvDepth]

theorem one_le_plDepth (xs : PyList) : 1 ≤ plDepth xs := by
  cases xs <;> simp [plDepth]

theorem pyCodec_roundtrip :
    ∀ fuel : Nat,
      (∀ v rest, pvDepth v ≤ fuel → pyDecode fuel (pyEncode v ++ rest) = some (v, rest)) ∧
      (∀ xs rest, plDepth xs ≤ fuel →
        pyDecodeList fuel (plLength xs) (plEncode xs ++ rest) = some (xs, rest)) := by
  intro fuel
  induction fuel with
  | zero =>
    constructor
    · intro v rest h
      exact absurd h (by have := one_le_pvDepth v; omega)
    · intro xs rest h
      exact absurd h (by have := one_le_plDepth xs; omega)
  | succ k ih =>
    constructor
    · intro v rest hd
      cases v with
      | none => simp [pyEncode, pyDecode]
      | bool b => cases b <;> simp [pyEncode, pyDecode]
      | int n =>
        by_cases hn : n < 0
        · simp [pyEncode, if_pos hn, pyDecode]
          rw [abs_of_neg hn, neg_neg]
        · have habs : ((n.natAbs : Int)) = n := by omega
          simp [pyEncode, if_neg hn, pyDecode, habs]
      | str s =>
        cases s with
        | mk d =>
          simp only [pyEncode, List.cons_append, pyDecode]
          have hlen : d.length ≤ (d.map Char.toNat ++ rest).length := by
            simp
          rw [if_pos hlen]
          have htake : (d.map Char.toNat ++ rest).take d.length = d.map Char.toNat := by
            simp
          have hdrop : (d.map Char.toNat ++ rest).drop d.length = rest := by
            simp
          rw [htake, hdrop]
          have hmap : List.map (Char.ofNat ∘ Char.toNat) d = d := by
            have hco : (Char.ofNat ∘ Char.toNat) = (id : Char → Char) :=
              funext (fun c => Char.ofNat_toNat c)
            rw [hco, List.map_id]
          simp [List.map_map, hmap]
      | list xs =>
        have hdep : plDepth xs ≤ k := by
          simp [pvDepth] at hd; omega
        simp only [pyEncode, List.cons_append, pyDecode, ih.2 xs rest hdep,
          Option.map_some']
      | tuple xs =>
        have hdep : plDepth xs ≤ k := by
          simp [pvDepth] at hd; omega
        simp only [pyEncode, List.cons_append, pyDecode, ih.2 xs rest hdep,
          Option.map_some']
    · intro xs rest hd
      cases xs with
      | nil => simp [plEncode, plLength, pyDecodeList]
      | cons h t =>
        have hdh : pvDepth h ≤ k := by
          simp [plDepth] at hd; omega
        have hdt : plDepth t ≤ k := by
          simp [plDepth] at hd; omega
        have harr : plEncode (.cons h t) ++ rest = pyEncode h ++ (plEncode t ++ rest) := by
          simp [plEncode]
        rw [harr]
        simp only [plLength, pyDecodeList, ih.1 h _ hdh, ih.2 t rest hdt,
          Option.map_some']

theorem one_le_pyEncode_length (v : PyValue) : 1 ≤ (pyEncode v).length := by
  cases v <;> simp [pyEncode]

theorem pvDepth_le_encode_length :
    ∀ m : Nat,
      (∀ v : PyValue, sizeOf v ≤ m → pvDepth v ≤ (pyEncode v).length) ∧
      (∀ xs : PyList, sizeOf xs ≤ m → plDepth xs ≤ (plEncode xs).length + 1) := by
  intro m
  induction m with
  | zero =>
    constructor
    · intro v h
      exfalso
      cases v <;> simp at h
    · intro xs h
      exfalso
      cases xs <;> simp at h
  | succ k ih =>
    constructor
    · intro v hv
      cases v with
      | none => simp [pvDepth, pyEncode]
      | bool b => simp [pvDepth, pyEncode]
      | int n => simp [pvDepth, pyEncode]
      | str s => simp [pvDepth, pyEncode]
      | list xs =>
        have hsz : sizeOf xs ≤ k := by simp at hv; omega
        have := ih.2 xs hsz
        simp [pvDepth, pyEncode]
        omega
      | tuple xs =>
        have hsz : sizeOf xs ≤ k := by simp at hv; omega
        have := ih.2 xs hsz
        simp [pvDepth, pyEncode]
        omega
    · intro xs hxs
      cases xs with
      | nil => simp [plDepth, plEncode]
      | cons hd tl =>
        have hh : sizeOf hd ≤ k := by simp at hxs; omega
        have ht : sizeOf tl ≤ k := by simp at hxs; omega
        have h1 := ih.1 hd hh
        have h2 := ih.2 tl ht
        have h3 := one_le_pyEncode_length hd
        simp only [plDepth, plEncode, List.length_append]
        have hmax : max (pvDepth hd) (plDepth tl) ≤
            (pyEncode hd).length + (plEncode tl).length := by
          rw [Nat.max_le]
          omega
        omega

theorem pickleLoads_pickleDumps (v : PyValue) : pickleLoads (pickleDumps v) = some v := by
  have h1 : pvDepth v ≤ (pyEncode v).length :=
    (pvDepth_le_encode_length (sizeOf v)).1 v le_rfl
  have h2 := (pyCodec_roundtrip (pyEncode v).length).1 v [] h1
  rw [List.append_nil] at h2
  simp [pickleDumps, pickleLoads, h2]

theorem pickleDumps_injective : Function.Injective pickleDumps := by
  intro a b h
  have ha := pickleLoads_pickleDumps a
  have hb := pickleLoads_pickleDumps b
  rw [h, hb] at ha
  exact (Option.some.injEq _ _).mp ha.symm

/-! ### gzip layer and the on-disk cache of `cache.py` -/

/-- gzip wrapping: the two magic bytes `0x1f 0x8b` followed by the payload. -/
def gzipWrap (b : List Nat) : List Nat := 31 :: 139 :: b

/-- gzip auto-detection as done by `gzip.open` + `BadGzipFile`. -/
def isGzipBytes : List Nat → Bool
  | 31 :: 139 :: _ => true
  | _ => false

def gzipUnwrap : List Nat → List Nat
  | 31 :: 139 :: b => b
  | b => b

/-- Errors surfaced by the `cache.py` functions. -/
inductive CacheError where
  | missingCachedResult
  | unpicklingError
deriving DecidableEq

/-- The filesystem visible to `cache.py`: paths mapped to file bytes. -/
abbrev FS := List (String × List Nat)

def fsLookup : FS → String → Option (List Nat)
  | [], _ => Option.none
  | (q, c) :: t, p => if p = q then some c else fsLookup t p

/-- Functions being memoized: positional plus keyword arguments in, value out. -/
abbrev Fn := List PyValue → List (String × PyValue) → PyValue

/-- `save_cache` of `cache.py`: pickle the value, gzip-wrapping when asked. -/
def save_cache (fs : FS) (value_ : PyValue) (cache_path : String) (use_gzip : Bool) : FS :=
  (cache_path, if use_gzip then gzipWrap (pickleDumps value_) else pickleDumps value_) :: fs

/-- `load_cache` of `cache.py`: missing path raises `MissingCachedResult`; an
existing file is read through `gzip.open` first, falling back to a raw read
when the content is not gzip-compressed. -/
def load_cache (fs : FS) (cache_path : String) : Except CacheError PyValue :=
  match fsLookup fs cache_path with
  | Option.none => .error .missingCachedResult
  | some content =>
    if isGzipBytes content then
      match pickleLoads (gzipUnwrap content) with
      | some v => .ok v
      | Option.none => .error .unpicklingError
    else
      match pickleLoads content with
      | some v => .ok v
      | Option.none => .error .unpicklingError

/-- `get_result` of `cache.py`.  The `Bool` in the result records whether
`funct` was invoked. -/
def get_result (fs : FS) (funct : Fn) (cache_path : String)
    (args : Option (List PyValue)) (kwargs : Option (List (String × PyValue)))
    (use_gzip : Bool) (update_cache : Bool) :
    Except CacheError PyValue × FS × Bool :=
  if update_cache = false ∧ (fsLookup fs cache_path).isSome then
    (load_cache fs cache_path, fs, false)
  else
    let args := args.getD []
    let kwargs := kwargs.getD []
    let result := funct args kwargs
    (.ok result, save_cache fs result cache_path use_gzip, true)

mutual

/-- Python `str()` on a value, as fed to `hash_from_tuple`. -/
def pyStrOf : PyValue → String
  | .none => "None"
  | .bool b => cond b "True" "False"
  | .int n => toString n
  | .str s => s
  | .list xs => "[" ++ plReprJoin xs ++ "]"
  | .tuple xs => "(" ++ plReprJoinT xs ++ ")"

/-- Python `repr()` on a value, used for elements of containers. -/
def pyReprOf : PyValue → String
  | .none => "None"
  | .bool b => cond b "True" "False"
  | .int n => toString n
  | .str s => "'" ++ s ++ "'"
  | .list xs => "[" ++ plReprJoin xs ++ "]"
  | .tuple xs => "(" ++ plReprJoinT xs ++ ")"

def plReprJoin : PyList → String
  | .nil => ""
  | .cons h .nil => pyReprOf h
  | .cons h t => pyReprOf h ++ ", " ++ plReprJoin t

def plReprJoinT : PyList → String
  | .nil => ""
  | .cons h .nil => pyReprOf h ++ ","
  | .cons h t => pyReprOf h ++ ", " ++ plReprJoinT t

end

/-- `hash_from_tuple` of `cache.py`: md5 of the space-joined `str()` forms. -/
def hash_from_tuple (md5s : String → Nat) (tuple_ : List PyValue) : Nat :=
  md5s (String.intercalate " " (tuple_.map pyStrOf))

/-- `get_cached_result_from_dir` of `cache.py`.  Note that the source passes
neither `use_gzip` nor `kwargs` on to `get_result`, so `get_result` runs with
its default `use_gzip=False`. -/
def get_cached_result_from_dir (md5s : String → Nat) (fs : FS) (funct : Fn)
    (functName : String) (cache_dir : String) (args : List PyValue)
    (update_cache : Bool) (use_gzip : Bool) :
    Except CacheError PyValue × FS × Bool :=
  let hash := hash_from_tuple md5s args
  let extension := if use_gzip then "pickle.gz" else "pickle"
  let cache_path := cache_dir ++ "/" ++ functName ++ "." ++ toString hash ++ "." ++ extension
  get_result fs funct cache_path (some args) Option.none false update_cache

/-! ### The `cache_call` memoizer of `query_sra.py` -/

/-- Errors surfaced by `cache_call` and `_hash` of `query_sra.py`. -/
inductive PyError where
  | valueError
  | unpicklingError
deriving DecidableEq

mutual

/-- Python hashability: lists are unhashable, tuples are hashable when all
their elements are, atoms are hashable. -/
def pyHashable : PyValue → Bool
  | .none => true
  | .bool _ => true
  | .int _ => true
  | .str _ => true
  | .list _ => false
  | .tuple xs => plHashable xs

def plHashable : PyList → Bool
  | .nil => true
  | .cons h t => pyHashable h && plHashable t

end

/-- `_hash` of `query_sra.py`: reject unhashable values with a `ValueError`,
otherwise md5 the pickled value. -/
def _hash (md5 : List Nat → Nat) (value : PyValue) : Except PyError Nat :=
  if pyHashable value then .ok (md5 (pickleDumps value)) else .error .valueError

/-- Hash every value of a list in order, stopping at the first failure, as the
list comprehension in `cache_call` does. -/
def hash_list (md5 : List Nat → Nat) : List PyValue → Except PyError (List Nat)
  | [] => .ok []
  | v :: rest => do
      let h ← _hash md5 v
      let t ← hash_list md5 rest
      pure (h :: t)

/-- `sorted(kwargs.keys())`. -/
def kwargSortedKeys (kwargs : List (String × PyValue)) : List String :=
  List.insertionSort (fun a b : String => a ≤ b) (kwargs.map Prod.fst)

/-- The keyword-argument values in sorted-key order, `kwargs[k]` for each key. -/
def kwargValues (kwargs : List (String × PyValue)) : List PyValue :=
  (kwargSortedKeys kwargs).filterMap (fun k => List.lookup k kwargs)

/-- The sequence of argument values whose hashes make up the cache key:
positional values first, then keyword values in sorted-key order. -/
def cacheCallValues (args : List PyValue) (kwargs : List (String × PyValue)) :
    List PyValue :=
  args ++ kwargValues kwargs

/-- `tuple(hashes)` as passed to the final `_hash` call. -/
def digestTuple (hashes : List Nat) : PyValue :=
  .tuple (listToPyList (hashes.map (fun h => PyValue.int (Int.ofNat h))))

/-- Cache paths used by `cache_call`: `cache_dir / funct.__name__ / str(hash_)`. -/
abbrev CCPath := String × String × Nat

/-- The filesystem visible to `cache_call`. -/
abbrev CCFS := List (CCPath × List Nat)

def ccLookup : CCFS → CCPath → Option (List Nat)
  | [], _ => Option.none
  | (q, c) :: t, p => if p = q then some c else ccLookup t p

/-- The cache path derived by `cache_call` for a given invocation. -/
def cache_call_path (md5 : List Nat → Nat) (functName cache_dir : String)
    (args : List PyValue) (kwargs : List (String × PyValue)) :
    Except PyError CCPath := do
  let hashes ← hash_list md5 (cacheCallValues args kwargs)
  let hash_ ← _hash md5 (digestTuple hashes)
  pure ((cache_dir, functName, hash_) : CCPath)

/-- `cache_call` of `query_sra.py`.  The `Bool` in the result records whether
`funct` was invoked. -/
def cache_call (md5 : List Nat → Nat) (fs : CCFS) (funct : Fn)
    (functName cache_dir : String)
    (args : Option (List PyValue)) (kwargs : Option (List (String × PyValue))) :
    Except PyError (PyValue × CCFS × Bool) := do
  let args := args.getD []
  let kwargs := kwargs.getD []
  let cache_path ← cache_call_path md5 functName cache_dir args kwargs
  match ccLookup fs cache_path with
  | some content =>
    match pickleLoads content with
    | some v => pure (v, fs, false)
    | Option.none => Except.error PyError.unpicklingError
  | Option.none =>
    let result := funct args kwargs
    pure (result, (cache_path, pickleDumps result) :: fs, true)

/-- Concrete injective stand-in for an md5 digest over bytes. -/
def natPairList : List Nat → Nat
  | [] => 0
  | a :: t => Nat.pair a (natPairList t) + 1

def md5Model : List Nat → Nat := natPairList

/-- Concrete stand-in for md5 over an encoded string. -/
def md5sModel (s : String) : Nat := md5Model (s.data.map Char.toNat)

theorem natPairList_injective : Function.Injective natPairList := by
  intro a
  induction a with
  | nil =>
    intro b h
    cases b with
    | nil => rfl
    | cons x t => simp [natPairList] at h
  | cons x t ih =>
    intro b h
    cases b with
    | nil => simp [natPairList] at h
    | cons y u =>
      simp only [natPairList, Nat.add_right_cancel_iff] at h
      obtain ⟨hx, ht⟩ := Nat.pair_eq_pair.mp h
      rw [hx, ih ht]

theorem md5Model_injective : Function.Injective md5Model := natPairList_injective

/-! ### Accession-format validation (`fetch_sra.py`, `query_sra.py`) -/

/-- The ASCII whitespace stripped by Python's `int(str)`: space, tab, newline,
carriage return, vertical tab, form feed. -/
def isPyWs (c : Char) : Bool :=
  (c.toNat == 32) || (c.toNat == 9) || (c.toNat == 10) || (c.toNat == 13) ||
    (c.toNat == 11) || (c.toNat == 12)

def stripPyWs (cs : List Char) : List Char :=
  ((cs.dropWhile isPyWs).reverse.dropWhile isPyWs).reverse

/-- An ASCII digit. -/
def isDig (c : Char) : Bool := decide (48 ≤ c.toNat ∧ c.toNat ≤ 57)

/-- Scanner for the tail of a Python integer literal: digits with single
underscores allowed between digits only (the underscore is code point 95). -/
def digitsCore : List Char → Bool
  | [] => true
  | [c] => if c.toNat = 95 then false else isDig c
  | c :: d :: rest =>
    if c.toNat = 95 then isDig d && digitsCore rest
    else isDig c && digitsCore (d :: rest)

def digitsTok : List Char → Bool
  | [] => false
  | c :: rest => isDig c && digitsCore rest

/-- Whether Python's `int()` accepts the string: optional surrounding
whitespace, an optional sign (`+` is 43, `-` is 45), then a digit run with
optional single underscores between digits. -/
def pythonIntParseable (cs : List Char) : Bool :=
  match stripPyWs cs with
  | [] => false
  | c :: rest =>
    if c.toNat = 43 ∨ c.toNat = 45 then digitsTok rest
    else digitsTok (c :: rest)

/-- The id validation prologue shared by `_fetch_bioproject_info_with_id`,
`fetch_experiment_info` and their siblings: reject ids that carry the
accession prefix (after `.lower()`), then reject ids `int()` cannot parse.
Returns `true` when the id is accepted. -/
def accCheck (pfx : List Char) (id : List Char) : Bool :=
  !(pfx.isPrefixOf (id.map Char.toLower)) && pythonIntParseable id

/-- The validator of `_fetch_bioproject_info_with_id` (`fetch_sra.py`). -/
def _fetch_bioproject_info_with_id_check (bioproject_id : String) : Bool :=
  accCheck "prj".data bioproject_id.data

/-- The validator of `fetch_experiment_info` (`query_sra.py`). -/
def fetch_experiment_info_check (experiment_id : String) : Bool :=
  accCheck "s".data experiment_id.data

/-! ### `download_fastq_from_sra` (`download_sra.py`) -/

/-- Captured output of one subprocess invocation. -/
structure ProcOut where
  exitCode : Nat
  stdout : String
  stderr : String

inductive DlError where
  | valueError (msg : String)
  | runtimeError (msg : String)
  | calledProcessError (msg : String)
deriving DecidableEq

def PREFETCH_BIN : String := "prefetch"
def VALIDATE_BIN : String := "vdb-validate"
def FASTERQ_DUMP_BIN : String := "fasterq-dump"
/-- The source assigns `GZIP_BIN = "gzip"` and immediately rebinds it. -/
def GZIP_BIN : String := "pigz"

/-- The two interpolation lines appended to a failure message.  Faithful to the
source at `download_sra.py:54-55` and `66-67`: both lines interpolate
`process.stdout`. -/
def cmdOutTail (p : ProcOut) : String :=
  "\nstdout:\n" ++ p.stdout ++ "\nstderr:\n" ++ p.stdout

/-- `download_fastq_from_sra`.  `runner` supplies each subprocess's captured
result; `listing` is the content of `out_dir`; `fast_files` the files
`fasterq-dump` leaves in its output directory on success.  Returns the
outcome together with the list of commands actually executed. -/
def download_fastq_from_sra (runner : List String → ProcOut)
    (run_acc out_dir : String) (out_dir_exists out_dir_is_dir : Bool)
    (listing : List String) (working_dir : String) (fast_files : List String)
    (fasterq_dump_num_threads max_dowload_size : Nat) :
    Except DlError Unit × List (List String) :=
  if out_dir_exists = false then
    (.error (.valueError ("out_dir should exist: " ++ out_dir)), [])
  else if out_dir_is_dir = false then
    (.error (.valueError ("out_dir should be a directory, but the given one is not: " ++ out_dir)), [])
  else
    let previous_downloaded_files :=
      listing.filter (fun n => run_acc.data.isPrefixOf n.data)
    if previous_downloaded_files ≠ [] then
      (.error (.runtimeError ("There are previous downloaded files for this run: " ++
        String.intercalate "," previous_downloaded_files)), [])
    else
      let prefetch_cmd := [PREFETCH_BIN, "--max-size", toString max_dowload_size,
        "-O", working_dir, run_acc]
      let p1 := runner prefetch_cmd
      if p1.exitCode ≠ 0 then
        (.error (.runtimeError ("There was an error prefetching the accession " ++ run_acc ++
          ", the command was: " ++ String.intercalate " " prefetch_cmd ++ cmdOutTail p1)),
          [prefetch_cmd])
      else
        let sra_dir := working_dir ++ "/" ++ run_acc
        let validate_cmd := [VALIDATE_BIN, sra_dir]
        let p2 := runner validate_cmd
        if p2.exitCode ≠ 0 then
          (.error (.runtimeError ("There was an error validating the prefetched accession " ++
            run_acc ++ ", the command was: " ++ String.intercalate " " validate_cmd ++
            cmdOutTail p2)), [prefetch_cmd, validate_cmd])
        else
          let fast_out_dir := working_dir ++ "/fast"
          let fasterq_cmd := [FASTERQ_DUMP_BIN, "--outdir", fast_out_dir, "--temp",
            working_dir, "--split-3", "--threads", toString fasterq_dump_num_threads,
            "--skip-technical", "--seq-defline", "@$ac.$si.$ri:$sg:$sn", sra_dir]
          let p3 := runner fasterq_cmd
          if p3.exitCode ≠ 0 then
            (.error (.calledProcessError ("There was an error doing fasterq_dump the accession " ++
              run_acc ++ ", the command was: " ++ String.intercalate " " fasterq_cmd)),
              [prefetch_cmd, validate_cmd, fasterq_cmd])
          else
            let gzip_cmds := fast_files.map (fun f => [GZIP_BIN, f])
            let mv_cmds := fast_files.map (fun f => ["mv", f ++ ".gz", out_dir])
            (.ok (), [prefetch_cmd, validate_cmd, fasterq_cmd] ++ gzip_cmds ++ mv_cmds)

theorem isGzipBytes_pickleDumps (v : PyValue) :
    isGzipBytes (pickleDumps v) = false := by
  simp [pickleDumps, isGzipBytes]

/-! ### Claim C3: cache round-trip -/

/-- C3: for every value and every cache path, saving with `save_cache`
(gzip on or off) and loading back with `load_cache` yields the original
value. -/
theorem save_load_roundtrip (fs : FS) (cache_path : String) (v : PyValue)
    (use_gzip : Bool) :
    load_cache (save_cache fs v cache_path use_gzip) cache_path = .ok v := by
  cases use_gzip with
  | true =>
    simp [save_cache, load_cache, fsLookup, gzipWrap, isGzipBytes, gzipUnwrap,
      pickleLoads_pickleDumps]
  | false =>
    simp [save_cache, load_cache, fsLookup, isGzipBytes_pickleDumps,
      pickleLoads_pickleDumps]

/-! ### Claim C1: `get_result` read and write paths -/

/-- C1: when the forced-refresh flag is unset and the cache path exists,
`get_result` returns the deserialized stored value without invoking the
function and leaves the filesystem untouched; otherwise it invokes the
function on the given arguments, persists the returned value at the cache
path and returns it. -/
theorem get_result_read_and_write_path (fs : FS) (funct : Fn) (cache_path : String)
    (args : Option (List PyValue)) (kwargs : Option (List (String × PyValue)))
    (use_gzip update_cache : Bool) :
    (update_cache = false → (fsLookup fs cache_path).isSome = true →
      get_result fs funct cache_path args kwargs use_gzip update_cache =
        (load_cache fs cache_path, fs, false)) ∧
    ((update_cache = true ∨ fsLookup fs cache_path = Option.none) →
      get_result fs funct cache_path args kwargs use_gzip update_cache =
        (.ok (funct (args.getD []) (kwargs.getD [])),
         save_cache fs (funct (args.getD []) (kwargs.getD [])) cache_path use_gzip,
         true)) := by
  constructor
  · intro h1 h2
    simp [get_result, h1, h2]
  · intro h
    have hneg : ¬ (update_cache = false ∧ (fsLookup fs cache_path).isSome) := by
      rcases h with h | h
      · simp [h]
      · simp [h]
    simp [get_result, hneg]

/-- Witness for C1 at concrete inputs: a one-entry filesystem hits the read
path, the empty filesystem hits the write path. -/
theorem get_result_read_and_write_path_witness :
    (get_result [("p", pickleDumps PyValue.none)] (fun _ _ => PyValue.int 7) "p"
        Option.none Option.none false false =
      (load_cache [("p", pickleDumps PyValue.none)] "p",
       [("p", pickleDumps PyValue.none)], false)) ∧
    (get_result [] (fun _ _ => PyValue.int 7) "p" Option.none Option.none false false =
      (.ok (PyValue.int 7), save_cache [] (PyValue.int 7) "p" false, true)) := by
  constructor
  · exact (get_result_read_and_write_path [("p", pickleDumps PyValue.none)]
      (fun _ _ => PyValue.int 7) "p" Option.none Option.none false false).1 rfl rfl
  · exact (get_result_read_and_write_path [] (fun _ _ => PyValue.int 7) "p"
      Option.none Option.none false false).2 (Or.inr rfl)

/-! ### Claim C5: `MissingCachedResult` behaviour -/

/-- C5: `load_cache` yields the `MissingCachedResult` condition exactly when
the path does not exist, and `get_result` never surfaces it (on a missing
path it invokes the function instead of reading). -/
theorem load_cache_missing_iff_not_exists :
    (∀ (fs : FS) (cache_path : String),
      load_cache fs cache_path = .error .missingCachedResult ↔
        fsLookup fs cache_path = Option.none) ∧
    (∀ (fs : FS) (funct : Fn) (cache_path : String) (args : Option (List PyValue))
        (kwargs : Option (List (String × PyValue))) (use_gzip update_cache : Bool),
      (get_result fs funct cache_path args kwargs use_gzip update_cache).1 ≠
        .error .missingCachedResult) := by
  have hmain : ∀ (fs : FS) (p : String),
      load_cache fs p = .error .missingCachedResult ↔ fsLookup fs p = Option.none := by
    intro fs p
    unfold load_cache
    cases hfs : fsLookup fs p with
    | none => simp
    | some content =>
      simp only [iff_false, ne_eq, reduceCtorEq]
      intro h
      by_cases hg : isGzipBytes content = true
      · rw [if_pos hg] at h
        cases hq : pickleLoads (gzipUnwrap content) <;> rw [hq] at h <;> simp at h
      · rw [if_neg hg] at h
        cases hq : pickleLoads content <;> rw [hq] at h <;> simp at h
  constructor
  · exact hmain
  · intro fs funct p args kwargs g u
    unfold get_result
    by_cases hc : u = false ∧ (fsLookup fs p).isSome
    · rw [if_pos hc]
      intro h
      have hnone := (hmain fs p).mp h
      rw [hnone] at hc
      simp at hc
    · rw [if_neg hc]
      simp

/-! ### Claim C2: cache-key derivation in `cache_call` -/

instance : IsTotal String (fun a b => a ≤ b) := ⟨fun a b => le_total a b⟩

instance : IsTrans String (fun a b => a ≤ b) := ⟨fun _ _ _ => le_trans⟩

instance : IsAntisymm String (fun a b => a ≤ b) := ⟨fun _ _ => le_antisymm⟩

theorem lookup_eq_of_perm {β : Type} {l1 l2 : List (String × β)} (h : l1.Perm l2) :
    (l1.map Prod.fst).Nodup → ∀ k, List.lookup k l1 = List.lookup k l2 := by
  induction h with
  | nil => intro _ _; rfl
  | cons x h ih =>
    intro nd k
    obtain ⟨a, b⟩ := x
    simp only [List.map_cons, List.nodup_cons] at nd
    simp only [List.lookup]
    cases hk : k == a with
    | true => rfl
    | false => exact ih nd.2 k
  | swap x y l =>
    intro nd k
    obtain ⟨a, b⟩ := x
    obtain ⟨c, d⟩ := y
    simp only [List.map_cons, List.nodup_cons, List.mem_cons] at nd
    have hca : ¬ (c = a) := fun hE => nd.1 (Or.inl hE)
    simp only [List.lookup]
    cases hk : k == c with
    | true =>
      cases hk2 : k == a with
      | true =>
        exfalso
        exact hca ((eq_of_beq hk).symm.trans (eq_of_beq hk2))
      | false => rfl
    | false =>
      cases hk2 : k == a with
      | true => rfl
      | false => rfl
  | trans h1 _ ih1 ih2 =>
    intro nd k
    have nd2 := ((h1.map Prod.fst).nodup_iff).mp nd
    exact (ih1 nd k).trans (ih2 nd2 k)

theorem kwargSortedKeys_eq_of_perm {l1 l2 : List (String × PyValue)}
    (h : l1.Perm l2) : kwargSortedKeys l1 = kwargSortedKeys l2 := by
  unfold kwargSortedKeys
  have hp : (List.insertionSort (fun a b : String => a ≤ b) (l1.map Prod.fst)).Perm
      (List.insertionSort (fun a b : String => a ≤ b) (l2.map Prod.fst)) :=
    (List.perm_insertionSort _ _).trans
      ((h.map Prod.fst).trans (List.perm_insertionSort _ _).symm)
  exact List.eq_of_perm_of_sorted hp (List.sorted_insertionSort _ _)
    (List.sorted_insertionSort _ _)

theorem kwargValues_eq_of_perm {l1 l2 : List (String × PyValue)}
    (h : l1.Perm l2) (nd : (l1.map Prod.fst).Nodup) :
    kwargValues l1 = kwargValues l2 := by
  unfold kwargValues
  rw [kwargSortedKeys_eq_of_perm h,
    funext (fun k => lookup_eq_of_perm h nd k)]

theorem pyHashable_digestTuple (hs : List Nat) :
    pyHashable (digestTuple hs) = true := by
  unfold digestTuple
  induction hs with
  | nil => rfl
  | cons a t ih =>
    simp only [List.map_cons, listToPyList, pyHashable, plHashable]
    simp only [List.map_cons, listToPyList, pyHashable, plHashable] at ih
    simp
    exact ih

theorem listToPyList_injective : Function.Injective listToPyList := by
  intro a
  induction a with
  | nil =>
    intro b h
    cases b with
    | nil => rfl
    | cons y u => simp [listToPyList] at h
  | cons x t ih =>
    intro b h
    cases b with
    | nil => simp [listToPyList] at h
    | cons y u =>
      simp only [listToPyList, PyList.cons.injEq] at h
      rw [h.1, ih h.2]

theorem pyValue_intOfNat_injective :
    Function.Injective (fun h : Nat => PyValue.int (Int.ofNat h)) := by
  intro x y hxy
  simpa using hxy

theorem digestTuple_injective : Function.Injective digestTuple := by
  intro a b h
  simp only [digestTuple, PyValue.tuple.injEq] at h
  have hmap := listToPyList_injective h
  exact List.map_injective_iff.mpr pyValue_intOfNat_injective hmap

theorem _hash_digestTuple (md5 : List Nat → Nat) (hs : List Nat) :
    _hash md5 (digestTuple hs) = .ok (md5 (pickleDumps (digestTuple hs))) := by
  simp [_hash, pyHashable_digestTuple]

/-- C2 (amended): identical arguments — including any permutation of the
keyword-argument order — derive the same cache path; and two calls whose
derived argument-value hash sequences differ derive different paths whenever
md5 is injective (i.e. barring an MD5 collision).  Differing arguments whose
hash sequences coincide (see the counterexample) derive the same path. -/
theorem cache_call_key_determinism :
    (∀ (md5 : List Nat → Nat) (functName cache_dir : String) (args : List PyValue)
        (kw1 kw2 : List (String × PyValue)), kw1.Perm kw2 → (kw1.map Prod.fst).Nodup →
      cache_call_path md5 functName cache_dir args kw1 =
        cache_call_path md5 functName cache_dir args kw2) ∧
    (∀ (md5 : List Nat → Nat), Function.Injective md5 →
      ∀ (functName cache_dir : String) (a1 a2 : List PyValue)
        (k1 k2 : List (String × PyValue)) (h1 h2 : List Nat),
        hash_list md5 (cacheCallValues a1 k1) = .ok h1 →
        hash_list md5 (cacheCallValues a2 k2) = .ok h2 →
        h1 ≠ h2 →
        cache_call_path md5 functName cache_dir a1 k1 ≠
          cache_call_path md5 functName cache_dir a2 k2) := by
  constructor
  · intro md5 functName cache_dir args kw1 kw2 hperm nd
    unfold cache_call_path
    rw [show cacheCallValues args kw1 = cacheCallValues args kw2 from by
      unfold cacheCallValues
      rw [kwargValues_eq_of_perm hperm nd]]
  · intro md5 hinj functName cache_dir a1 a2 k1 k2 h1 h2 hh1 hh2 hne heq
    unfold cache_call_path at heq
    rw [hh1, hh2] at heq
    simp only [bind, Except.bind, _hash_digestTuple, pure, Except.pure,
      Except.ok.injEq, Prod.mk.injEq] at heq
    have hhash := hinj heq.2.2
    have hdump := pickleDumps_injective hhash
    exact hne (digestTuple_injective hdump)

/-- C2 counterexample: two calls with different arguments — the same value
bound to different keyword names — derive the same cache path.  The md5
stand-in used here is injective, so the collision is not an MD5 collision:
the keyword names are simply not part of the derived key. -/
theorem cache_call_key_not_injective_counterexample :
    cache_call_path md5Model "f" "d" [] [("a", PyValue.int 5)] =
      cache_call_path md5Model "f" "d" [] [("b", PyValue.int 5)] ∧
    [("a", PyValue.int 5)] ≠ [("b", PyValue.int 5)] := by
  constructor
  · rfl
  · decide

/-- Witness for C2 at concrete inputs: a swapped keyword list gives the same
path, and hash sequences of different lengths give different paths. -/
theorem cache_call_key_determinism_witness :
    (cache_call_path md5Model "f" "d" [] [("a", PyValue.int 1), ("b", PyValue.int 2)] =
      cache_call_path md5Model "f" "d" [] [("b", PyValue.int 2), ("a", PyValue.int 1)]) ∧
    (cache_call_path md5Model "f" "d" [PyValue.int 5] [] ≠
      cache_call_path md5Model "f" "d" [] []) := by
  constructor
  · exact cache_call_key_determinism.1 md5Model "f" "d" []
      [("a", PyValue.int 1), ("b", PyValue.int 2)]
      [("b", PyValue.int 2), ("a", PyValue.int 1)]
      (List.Perm.swap ("b", PyValue.int 2) ("a", PyValue.int 1) [])
      (by decide)
  · exact cache_call_key_determinism.2 md5Model md5Model_injective "f" "d"
      [PyValue.int 5] [] [] []
      [md5Model (pickleDumps (PyValue.int 5))] []
      rfl rfl (by simp)

/-! ### Claim C6: unhashable arguments -/

theorem hash_list_error_of_unhashable (md5 : List Nat → Nat) (l : List PyValue)
    (h : ∃ v ∈ l, pyHashable v = false) :
    hash_list md5 l = .error .valueError := by
  induction l with
  | nil => simp at h
  | cons x t ih =>
    rcases h with ⟨v, hv, hnh⟩
    rcases List.mem_cons.mp hv with rfl | hvt
    · simp [hash_list, _hash, hnh, bind, Except.bind]
    · by_cases hx : pyHashable x = true
      · simp [hash_list, _hash, hx, ih ⟨v, hvt, hnh⟩, bind, Except.bind,
          Functor.map, Except.map]
      · have hx' : pyHashable x = false := by
          revert hx; cases pyHashable x <;> simp
        simp [hash_list, _hash, hx', bind, Except.bind]

theorem hash_list_ok_of_hashable (md5 : List Nat → Nat) (l : List PyValue)
    (h : ∀ v ∈ l, pyHashable v = true) :
    ∃ hs, hash_list md5 l = .ok hs := by
  induction l with
  | nil => exact ⟨[], rfl⟩
  | cons x t ih =>
    obtain ⟨hs, hhs⟩ := ih (fun v hv => h v (List.mem_cons_of_mem _ hv))
    refine ⟨md5 (pickleDumps x) :: hs, ?_⟩
    simp [hash_list, _hash, h x (List.mem_cons_self _ _), hhs, bind, Except.bind,
      Functor.map, Except.map, pure, Except.pure]

theorem cache_call_path_error_of (md5 : List Nat → Nat)
    (functName cache_dir : String) (args : List PyValue)
    (kwargs : List (String × PyValue))
    (herr : hash_list md5 (cacheCallValues args kwargs) = .error .valueError) :
    cache_call_path md5 functName cache_dir args kwargs = .error .valueError := by
  unfold cache_call_path
  rw [herr]
  rfl

theorem cache_call_path_ok_of (md5 : List Nat → Nat)
    (functName cache_dir : String) (args : List PyValue)
    (kwargs : List (String × PyValue)) (hs : List Nat)
    (hhs : hash_list md5 (cacheCallValues args kwargs) = .ok hs) :
    cache_call_path md5 functName cache_dir args kwargs =
      .ok ((cache_dir, functName, md5 (pickleDumps (digestTuple hs))) : CCPath) := by
  unfold cache_call_path
  rw [hhs]
  simp [bind, Except.bind, _hash_digestTuple, pure, Except.pure]

/-- C6: a `cache_call` whose positional or keyword argument values contain an
unhashable value fails with the `ValueError` raised by `_hash`, before any
cache lookup or function invocation; when every argument value is hashable
the call never produces that `ValueError`. -/
theorem cache_call_unhashable_value_error :
    (∀ (md5 : List Nat → Nat) (fs : CCFS) (funct : Fn) (functName cache_dir : String)
        (args : Option (List PyValue)) (kwargs : Option (List (String × PyValue))),
      (∃ v ∈ cacheCallValues (args.getD []) (kwargs.getD []), pyHashable v = false) →
      cache_call md5 fs funct functName cache_dir args kwargs = .error .valueError) ∧
    (∀ (md5 : List Nat → Nat) (fs : CCFS) (funct : Fn) (functName cache_dir : String)
        (args : Option (List PyValue)) (kwargs : Option (List (String × PyValue))),
      (∀ v ∈ cacheCallValues (args.getD []) (kwargs.getD []), pyHashable v = true) →
      cache_call md5 fs funct functName cache_dir args kwargs ≠ .error .valueError) := by
  constructor
  · intro md5 fs funct functName cache_dir args kwargs hex
    have hpath := cache_call_path_error_of md5 functName cache_dir _ _
      (hash_list_error_of_unhashable md5 _ hex)
    simp only [cache_call, hpath, bind, Except.bind]
  · intro md5 fs funct functName cache_dir args kwargs hall heq
    obtain ⟨hs, hhs⟩ := hash_list_ok_of_hashable md5 _ hall
    have hpath := cache_call_path_ok_of md5 functName cache_dir _ _ hs hhs
    simp only [cache_call, hpath, bind, Except.bind] at heq
    split at heq
    · split at heq
      · simp [pure, Except.pure] at heq
      · simp at heq
    · simp [pure, Except.pure] at heq

/-- Witness for C6 at concrete inputs: a Python list argument is unhashable
and fails, an int argument is hashable and does not raise `ValueError`. -/
theorem cache_call_unhashable_value_error_witness :
    (cache_call md5Model [] (fun _ _ => PyValue.none) "f" "d"
        (some [PyValue.list PyList.nil]) Option.none = .error .valueError) ∧
    (cache_call md5Model [] (fun _ _ => PyValue.none) "f" "d"
        (some [PyValue.int 1]) Option.none ≠ .error .valueError) := by
  constructor
  · exact cache_call_unhashable_value_error.1 md5Model [] (fun _ _ => PyValue.none)
      "f" "d" (some [PyValue.list PyList.nil]) Option.none (by decide)
  · exact cache_call_unhashable_value_error.2 md5Model [] (fun _ _ => PyValue.none)
      "f" "d" (some [PyValue.int 1]) Option.none (by decide)

/-! ### Claim C10: positional and keyword spellings share one cache entry -/

/-- C10: with the same value passed positionally in one call and as a keyword
argument in the other, `cache_call` derives the same cache path, so the
second call returns the first call's cached result without invoking the
function (the `false` flag records that the function was not invoked). -/
theorem cache_call_positional_keyword_alias :
    (cache_call md5Model [] (fun _ _ => PyValue.int 7) "f" "d"
        (some [PyValue.int 5]) Option.none =
      .ok (PyValue.int 7,
        [((("d", "f",
            md5Model (pickleDumps (digestTuple [md5Model (pickleDumps (PyValue.int 5))]))) : CCPath),
          pickleDumps (PyValue.int 7))], true)) ∧
    (cache_call md5Model
        [((("d", "f",
            md5Model (pickleDumps (digestTuple [md5Model (pickleDumps (PyValue.int 5))]))) : CCPath),
          pickleDumps (PyValue.int 7))]
        (fun _ _ => PyValue.int 7) "f" "d"
        Option.none (some [("x", PyValue.int 5)]) =
      .ok (PyValue.int 7,
        [((("d", "f",
            md5Model (pickleDumps (digestTuple [md5Model (pickleDumps (PyValue.int 5))]))) : CCPath),
          pickleDumps (PyValue.int 7))], false)) := by
  constructor
  · rfl
  · rfl

/-! ### Claim C7: accession-format validation -/

theorem char_eq_of_toNat_eq {c d : Char} (h : c.toNat = d.toNat) : c = d := by
  have hc := Char.ofNat_toNat c
  rw [h, Char.ofNat_toNat] at hc
  exact hc.symm

theorem isPyWs_eq_false_of_isDig {c : Char} (h : isDig c = true) :
    isPyWs c = false := by
  have hn : 48 ≤ c.toNat ∧ c.toNat ≤ 57 := by simpa [isDig] using h
  simp only [isPyWs, Bool.or_eq_false_iff, beq_eq_false_iff_ne, ne_eq]
  omega

theorem toLower_eq_self_of_isDig {c : Char} (h : isDig c = true) :
    c.toLower = c := by
  have hn : 48 ≤ c.toNat ∧ c.toNat ≤ 57 := by simpa [isDig] using h
  simp only [Char.toLower]
  rw [if_neg (by omega)]

theorem stripPyWs_of_no_ws (l : List Char) (h : ∀ c ∈ l, isPyWs c = false) :
    stripPyWs l = l := by
  unfold stripPyWs
  have h1 : l.dropWhile isPyWs = l := by
    cases l with
    | nil => rfl
    | cons c rest => simp [List.dropWhile_cons, h c (List.mem_cons_self _ _)]
  rw [h1]
  have h2 : l.reverse.dropWhile isPyWs = l.reverse := by
    cases hrev : l.reverse with
    | nil => rfl
    | cons c rest =>
      have hc : c ∈ l := by
        have hmem : c ∈ l.reverse := by
          rw [hrev]; exact List.mem_cons_self _ _
        simpa using hmem
      simp [List.dropWhile_cons, h c hc]
  rw [h2, List.reverse_reverse]

theorem digitsCore_of_all_digits : ∀ l : List Char,
    (∀ c ∈ l, isDig c = true) → digitsCore l = true := by
  intro l
  induction l with
  | nil => intro _; rfl
  | cons c rest ih =>
    intro h
    have hc := h c (List.mem_cons_self _ _)
    have hn : 48 ≤ c.toNat ∧ c.toNat ≤ 57 := by simpa [isDig] using hc
    cases rest with
    | nil =>
      simp only [digitsCore]
      rw [if_neg (by omega)]
      exact hc
    | cons d rest2 =>
      simp only [digitsCore]
      rw [if_neg (by omega)]
      simp [hc, ih (fun e he => h e (List.mem_cons_of_mem _ he))]

theorem pythonIntParseable_of_all_digits (l : List Char) (hne : l ≠ [])
    (h : ∀ c ∈ l, isDig c = true) : pythonIntParseable l = true := by
  unfold pythonIntParseable
  rw [stripPyWs_of_no_ws l (fun c hc => isPyWs_eq_false_of_isDig (h c hc))]
  cases l with
  | nil => exact absurd rfl hne
  | cons c rest =>
    have hc := h c (List.mem_cons_self _ _)
    have hn : 48 ≤ c.toNat ∧ c.toNat ≤ 57 := by simpa [isDig] using hc
    show (if c.toNat = 43 ∨ c.toNat = 45 then digitsTok rest
      else digitsTok (c :: rest)) = true
    rw [if_neg (by omega)]
    simp [digitsTok, hc,
      digitsCore_of_all_digits rest (fun d hd => h d (List.mem_cons_of_mem _ hd))]

/-- C7 (amended): the validator accepts an id exactly when the id does not
carry the accession prefix (case-insensitively) and Python's `int()` parses
it; every nonempty all-digit id is accepted (for any prefix that does not
start with a digit), but acceptance is not limited to digit strings — signed
ids such as `"-5"` are also accepted, see the counterexample. -/
theorem acc_validator_amended :
    (∀ (pfx id : List Char),
      accCheck pfx id = true ↔
        (pfx.isPrefixOf (id.map Char.toLower) = false ∧
          pythonIntParseable id = true)) ∧
    (∀ (p : Char) (pr id : List Char),
      isDig p = false → id ≠ [] → (∀ c ∈ id, isDig c = true) →
      accCheck (p :: pr) id = true) := by
  constructor
  · intro pfx id
    simp [accCheck, Bool.and_eq_true, Bool.not_eq_true']
  · intro p pr id hp hne hall
    have hlower : id.map Char.toLower = id := by
      have h1 : id.map Char.toLower = id.map (fun c => c) :=
        List.map_congr_left (fun c hc => toLower_eq_self_of_isDig (hall c hc))
      simpa using h1
    cases id with
    | nil => exact absurd rfl hne
    | cons d rest =>
      have hd := hall d (List.mem_cons_self _ _)
      have hdn : 48 ≤ d.toNat ∧ d.toNat ≤ 57 := by simpa [isDig] using hd
      have hpn : ¬ (48 ≤ p.toNat ∧ p.toNat ≤ 57) := by simpa [isDig] using hp
      have hpd : (p == d) = false := by
        refine beq_eq_false_iff_ne.mpr (fun hE => ?_)
        rw [hE] at hpn
        exact hpn hdn
      simp only [accCheck]
      rw [hlower]
      simp only [List.isPrefixOf, hpd, Bool.false_and, Bool.not_false,
        Bool.true_and]
      exact pythonIntParseable_of_all_digits _ hne hall

/-- C7 counterexample: the claim says the validators accept an id exactly when
it is a digit string, but `int("-5")` succeeds in Python, so the id `"-5"` —
which is not a digit string — passes both validators unrejected. -/
theorem acc_validator_accepts_nondigit_counterexample :
    _fetch_bioproject_info_with_id_check "-5" = true ∧
    fetch_experiment_info_check "-5" = true ∧
    ¬ (∀ c ∈ ("-5" : String).data, isDig c = true) := by
  refine ⟨by decide, by decide, by decide⟩

/-- Witness for C7 at concrete inputs: the iff at `"PRJ12345"` (rejected) and
the all-digit acceptance at `"1025377"`. -/
theorem acc_validator_amended_witness :
    (accCheck "prj".data "PRJ12345".data = true ↔
      ("prj".data.isPrefixOf ("PRJ12345".data.map Char.toLower) = false ∧
        pythonIntParseable "PRJ12345".data = true)) ∧
    accCheck "prj".data "1025377".data = true := by
  constructor
  · exact acc_validator_amended.1 "prj".data "PRJ12345".data
  · exact acc_validator_amended.2 'p' "rj".data "1025377".data (by decide)
      (by decide) (by decide)

/-! ### Claim C8: refusing to overwrite previous downloads -/

/-- C8: when the existing output directory already holds a file whose name
starts with the run accession, `download_fastq_from_sra` raises the
previous-downloads error, runs no subprocess (`[]` commands executed), and
leaves the directory contents unread and unmodified. -/
theorem download_refuses_existing_prefix
    (runner : List String → ProcOut) (run_acc out_dir working_dir : String)
    (listing fast_files : List String) (threads max_size : Nat)
    (hex : ∃ n ∈ listing, run_acc.data.isPrefixOf n.data = true) :
    download_fastq_from_sra runner run_acc out_dir true true listing working_dir
        fast_files threads max_size =
      (.error (.runtimeError ("There are previous downloaded files for this run: " ++
        String.intercalate ","
          (listing.filter (fun n => run_acc.data.isPrefixOf n.data)))), []) := by
  obtain ⟨n, hn, hsw⟩ := hex
  have hne : listing.filter (fun n => run_acc.data.isPrefixOf n.data) ≠ [] :=
    List.ne_nil_of_mem (List.mem_filter.mpr ⟨hn, hsw⟩)
  simp [download_fastq_from_sra, hne]

/-- Witness for C8 at concrete inputs. -/
theorem download_refuses_existing_prefix_witness :
    download_fastq_from_sra (fun _ => ⟨0, "", ""⟩) "SRR1" "out" true true
        ["SRR1_1.fastq.gz"] "wd" [] 6 30 =
      (.error (.runtimeError ("There are previous downloaded files for this run: " ++
        String.intercalate ","
          (["SRR1_1.fastq.gz"].filter
            (fun n => ("SRR1" : String).data.isPrefixOf n.data)))), []) :=
  download_refuses_existing_prefix (fun _ => ⟨0, "", ""⟩) "SRR1" "out" "wd"
    ["SRR1_1.fastq.gz"] [] 6 30 ⟨"SRR1_1.fastq.gz", by decide, by decide⟩

/-! ### Claim C9: failure messages of the external tools -/

def runnerStderrA : List String → ProcOut :=
  fun cmd => if cmd.head? = some PREFETCH_BIN then ⟨1, "OUT", "ERR-A"⟩ else ⟨0, "", ""⟩

def runnerStderrB : List String → ProcOut :=
  fun cmd => if cmd.head? = some PREFETCH_BIN then ⟨1, "OUT", "ERR-B"⟩ else ⟨0, "", ""⟩

/-- C9 (code bug): a failing prefetch yields an error message that embeds the
captured stdout under both the `stdout:` and the `stderr:` labels; the
captured stderr is never embedded, so two runs differing only in stderr
produce identical error messages. -/
theorem download_error_message_omits_stderr :
    (download_fastq_from_sra runnerStderrA "SRR1" "out" true true [] "wd" [] 6 30 =
      download_fastq_from_sra runnerStderrB "SRR1" "out" true true [] "wd" [] 6 30) ∧
    (download_fastq_from_sra runnerStderrA "SRR1" "out" true true [] "wd" [] 6 30 =
      (.error (.runtimeError
        ("There was an error prefetching the accession SRR1, the command was: " ++
         "prefetch --max-size 30 -O wd SRR1" ++
         "\nstdout:\nOUT\nstderr:\nOUT")),
        [["prefetch", "--max-size", "30", "-O", "wd", "SRR1"]])) ∧
    (runnerStderrA ["prefetch", "--max-size", "30", "-O", "wd", "SRR1"]).stderr ≠
      (runnerStderrB ["prefetch", "--max-size", "30", "-O", "wd", "SRR1"]).stderr := by
  refine ⟨?_, ?_, ?_⟩
  · rfl
  · rfl
  · decide

/-! ### Claim C4: the gzip flag on the directory-cache write path -/

/-- C4 (code bug): `get_cached_result_from_dir` invoked with `use_gzip=True`
names the cache file with the `pickle.gz` extension but stores the plain
pickled bytes, because the source never forwards `use_gzip` to `get_result`:
the stored content carries no gzip wrapping. -/
theorem get_cached_result_from_dir_gzip_flag_ignored :
    ((get_cached_result_from_dir md5sModel [] (fun _ _ => PyValue.int 7) "f" "d" []
        false true).2.1 =
      [("d/f." ++ toString (hash_from_tuple md5sModel []) ++ ".pickle.gz",
        pickleDumps (PyValue.int 7))]) ∧
    isGzipBytes (pickleDumps (PyValue.int 7)) = false ∧
    ((get_cached_result_from_dir md5sModel [] (fun _ _ => PyValue.int 7) "f" "d" []
        false true).1 = .ok (PyValue.int 7)) := by
  refine ⟨?_, rfl, rfl⟩
  rfl

/-- Witness for C5 at concrete inputs: the empty filesystem misses, and
`get_result` on it calls the function rather than surfacing the condition. -/
theorem load_cache_missing_iff_not_exists_witness :
    (load_cache [] "p" = .error .missingCachedResult ↔
      fsLookup [] "p" = Option.none) ∧
    (get_result [] (fun _ _ => PyValue.int 3) "p" Option.none Option.none
        false false).1 ≠ .error .missingCachedResult :=
  ⟨load_cache_missing_iff_not_exists.1 [] "p",
   load_cache_missing_iff_not_exists.2 [] (fun _ _ => PyValue.int 3) "p"
     Option.none Option.none false false⟩
